import Mathlib

/-!
# Verification of the WebSocket Communication Hub core

Shallow embedding of the Python sources of the
`Python-WebSocket-Communication-Hub` repository:

* `src/websocket/connection_manager.py` (`ConnectionManager`)
* `src/websocket/connection_pool.py` (`ConnectionPool`)
* `src/messaging/offline_queue.py` (`OfflineQueue`)
* `src/storage/message_store.py` (`MessageStore`)
* `src/rooms/room_manager.py` (`RoomManager`)
* `src/messaging/message_handler.py` (`MessageHandler`)
* `src/hub/communication_hub.py` (`CommunicationHub.send_to_user`)
* `src/api/app.py` (`handle_message` socket handler)

Python dictionaries are modelled as insertion-ordered association lists,
SQLite tables as lists of rows inside a store state carrying the
AUTOINCREMENT counter and a logical clock standing for
`CURRENT_TIMESTAMP` / `time.time()` (the clock advances strictly between
successive statements, the idealisation of wall-clock timestamps).
-/

namespace WSHub

/-- Embeds `d.get(k)` of a Python dict modelled as an insertion-ordered
association list: the first entry with the given key, if any. -/
def dictGet {α : Type} (d : List (Nat × α)) (k : Nat) : Option α :=
  (d.find? (fun p => p.1 = k)).map (fun p => p.2)

/-- Embeds `d[k] = v` on a Python dict: replaces the value of an existing key in
place, otherwise appends a new entry (insertion order preserved). -/
def dictSet {α : Type} (d : List (Nat × α)) (k : Nat) (v : α) : List (Nat × α) :=
  if (d.find? (fun p => p.1 = k)).isSome then
    d.map (fun p => if p.1 = k then (k, v) else p)
  else
    d ++ [(k, v)]

/-- Embeds `del d[k]` on a Python dict. -/
def dictDel {α : Type} (d : List (Nat × α)) (k : Nat) : List (Nat × α) :=
  d.filter (fun p => ¬ p.1 = k)

theorem find?_map_replace {α : Type} (t : List (Nat × α)) (k k' : Nat) (v : α)
    (hne : ¬ k' = k) :
    (t.map (fun p => if p.1 = k then (k, v) else p)).find? (fun p => p.1 = k')
      = t.find? (fun p => p.1 = k') := by
  induction t with
  | nil => rfl
  | cons p t ih =>
    by_cases hp : p.1 = k
    · simp only [List.map_cons, if_pos hp]
      rw [List.find?_cons_of_neg _ (by simpa using fun h => hne h.symm),
        List.find?_cons_of_neg _ (by simp [hp]; exact fun h => hne h.symm)]
      exact ih
    · simp only [List.map_cons, if_neg hp]
      by_cases hpk : p.1 = k'
      · rw [List.find?_cons_of_pos _ (by simpa using hpk),
          List.find?_cons_of_pos _ (by simpa using hpk)]
      · rw [List.find?_cons_of_neg _ (by simpa using hpk),
          List.find?_cons_of_neg _ (by simpa using hpk)]
        exact ih

theorem find?_map_replace_self {α : Type} (t : List (Nat × α)) (k : Nat) (v : α)
    (h : (t.find? (fun p => p.1 = k)).isSome) :
    (t.map (fun p => if p.1 = k then (k, v) else p)).find? (fun p => p.1 = k)
      = some (k, v) := by
  induction t with
  | nil => simp [List.find?] at h
  | cons p t ih =>
    by_cases hp : p.1 = k
    · simp only [List.map_cons, if_pos hp]
      rw [List.find?_cons_of_pos _ (by simp)]
    · simp only [List.map_cons, if_neg hp]
      rw [List.find?_cons_of_neg _ (by simpa using hp)]
      rw [List.find?_cons_of_neg _ (by simpa using hp)] at h
      exact ih h

theorem dictGet_dictSet_self {α : Type} (d : List (Nat × α)) (k : Nat) (v : α) :
    dictGet (dictSet d k v) k = some v := by
  unfold dictGet dictSet
  by_cases h : (d.find? (fun p => p.1 = k)).isSome
  · simp only [h, if_true]
    rw [find?_map_replace_self d k v h]
    rfl
  · have h0 : d.find? (fun p => p.1 = k) = none := by
      rwa [Option.not_isSome_iff_eq_none] at h
    rw [Bool.not_eq_true] at h
    simp only [h, Bool.false_eq_true, if_false]
    rw [List.find?_append, h0]
    simp [List.find?]

theorem dictGet_dictSet_ne {α : Type} (d : List (Nat × α)) (k k' : Nat) (v : α)
    (hne : ¬ k' = k) : dictGet (dictSet d k v) k' = dictGet d k' := by
  unfold dictGet dictSet
  by_cases h : (d.find? (fun p => p.1 = k)).isSome
  · simp only [h, if_true]
    rw [find?_map_replace d k k' v hne]
  · rw [Bool.not_eq_true] at h
    simp only [h, Bool.false_eq_true, if_false]
    rw [List.find?_append]
    cases hd : d.find? (fun p => p.1 = k') with
    | some p => simp
    | none =>
      have hkk : ¬ k = k' := fun hh => hne hh.symm
      simp [List.find?, hkk]

/-! ## Connection registry (`src/websocket/connection_manager.py`) -/

/-- The `connection_info` dict built in `ConnectionManager.add_connection`
(the `connected_at` / `last_activity` wall-clock fields are omitted: no
claim mentions them). -/
structure ConnInfo where
  connection_id : Nat
  user_id : Nat
  sid : Nat
  deriving DecidableEq

/-- State of `ConnectionManager`: `self.connections` maps connection id to
info, `self.user_connections` maps user id to a list of connection ids. -/
structure ConnMgr where
  connections : List (Nat × ConnInfo)
  user_connections : List (Nat × List Nat)
  deriving DecidableEq

/-- Embeds `ConnectionManager.add_connection`.  Note: the source performs no
duplicate check — an existing `connection_id` is silently overwritten in
`self.connections` and appended once more to the user's list. -/
def ConnMgr.add_connection (s : ConnMgr) (cid uid sid : Nat) : ConnMgr :=
  let info : ConnInfo := ⟨cid, uid, sid⟩
  let lst := (dictGet s.user_connections uid).getD []
  { connections := dictSet s.connections cid info
    user_connections := dictSet s.user_connections uid (lst ++ [cid]) }

/-- Embeds `ConnectionManager.get_connection`. -/
def ConnMgr.get_connection (s : ConnMgr) (cid : Nat) : Option ConnInfo :=
  dictGet s.connections cid

/-- Embeds `ConnectionManager.get_user_connections` (`.get(user_id, [])`). -/
def ConnMgr.get_user_connections (s : ConnMgr) (uid : Nat) : List Nat :=
  (dictGet s.user_connections uid).getD []

/-- Embeds `ConnectionManager.remove_connection`. -/
def ConnMgr.remove_connection (s : ConnMgr) (cid : Nat) : ConnMgr :=
  match s.get_connection cid with
  | none => s
  | some info =>
    let conns := dictDel s.connections cid
    let uc :=
      match dictGet s.user_connections info.user_id with
      | none => s.user_connections
      | some lst =>
        let lst' := lst.erase cid
        if lst'.isEmpty then dictDel s.user_connections info.user_id
        else dictSet s.user_connections info.user_id lst'
    { connections := conns, user_connections := uc }

/-- Registry well-formedness: every connection id recorded in a user's
list has an entry in `connections`.  This holds for every state reachable
by `add_connection` / `remove_connection` from the empty registry as long
as no duplicate `connection_id` is ever registered (a duplicate
registration breaks it, cf. the analysis of `add_connection`). -/
def ConnMgr.WF (s : ConnMgr) : Prop :=
  ∀ p ∈ s.user_connections, ∀ cid ∈ p.2, (dictGet s.connections cid).isSome

instance (s : ConnMgr) : Decidable s.WF := by
  unfold ConnMgr.WF
  exact List.decidableBAll _ _

/-! ## Connection pool (`src/websocket/connection_pool.py`) -/

/-- A pool add/remove event, for reasoning about arbitrary operation
sequences. -/
inductive PoolOp where
  | add (uid cid : Nat)
  | remove (uid cid : Nat)
  deriving DecidableEq

/-- Embeds `ConnectionPool.can_add_connection`: a user absent from
`self.user_connections` is always admissible (even when the configured
limit `L` is `0`).  The pool state is `self.user_connections`; the
configured `self.max_connections_per_user` is immutable after
construction and is passed explicitly as `L`. -/
def Pool.can_add_connection (L : Nat) (uc : List (Nat × List Nat)) (uid : Nat) : Bool :=
  match dictGet uc uid with
  | none => true
  | some l => decide (l.length < L)

/-- Embeds `ConnectionPool.add_connection`: returns `false` with no state change
when the limit is reached, otherwise appends the connection id. -/
def Pool.add_connection (L : Nat) (uc : List (Nat × List Nat)) (uid cid : Nat) :
    Bool × List (Nat × List Nat) :=
  if Pool.can_add_connection L uc uid then
    (true, dictSet uc uid (((dictGet uc uid).getD []) ++ [cid]))
  else
    (false, uc)

/-- Embeds `ConnectionPool.remove_connection`: removes the first occurrence and
deletes the user's entry when its list becomes empty. -/
def Pool.remove_connection (uc : List (Nat × List Nat)) (uid cid : Nat) :
    List (Nat × List Nat) :=
  match dictGet uc uid with
  | none => uc
  | some l =>
    if cid ∈ l then
      if (l.erase cid).isEmpty then dictDel uc uid
      else dictSet uc uid (l.erase cid)
    else uc

/-- Embeds `ConnectionPool.get_user_connection_count`. -/
def Pool.count (uc : List (Nat × List Nat)) (uid : Nat) : Nat :=
  ((dictGet uc uid).getD []).length

def Pool.step (L : Nat) (uc : List (Nat × List Nat)) : PoolOp → List (Nat × List Nat)
  | .add uid cid => (Pool.add_connection L uc uid cid).2
  | .remove uid cid => Pool.remove_connection uc uid cid

/-- The pool produced by running a sequence of add/remove events on a
fresh `ConnectionPool(max_connections_per_user = L)`. -/
def runPoolOps (L : Nat) (ops : List PoolOp) : List (Nat × List Nat) :=
  ops.foldl (Pool.step L) []

/-! ## The `messages` table (`src/storage/database.py`), shared by
`MessageStore` and `OfflineQueue`.  `α` is the type of the JSON payload
stored in the `content` column. -/

/-- One row of the `messages` table. -/
structure MsgRow (α : Type) where
  id : Nat
  sender_id : Option Nat
  recipient_id : Option Nat
  room_id : Option String
  message_type : String
  content : Option α
  delivered : Bool
  created_at : Nat
  delivered_at : Option Nat
  deriving DecidableEq

/-- The SQLite database holding the `messages` table: its rows, the next
AUTOINCREMENT id, and a logical clock standing for `CURRENT_TIMESTAMP`
(strictly advanced after every statement that reads it). -/
structure Store (α : Type) where
  rows : List (MsgRow α)
  nextId : Nat
  clock : Nat
  deriving DecidableEq

/-- The freshly initialised database (`init_database` creates the empty
table; SQLite row ids start at 1). -/
def Store.init {α : Type} : Store α := ⟨[], 1, 0⟩

/-- The undelivered rows addressed to a recipient
(`WHERE recipient_id = ? AND delivered = 0`), in table order. -/
def undeliveredFor {α : Type} (s : Store α) (uid : Nat) : List (MsgRow α) :=
  s.rows.filter (fun r => r.recipient_id = some uid ∧ r.delivered = false)

/-- Embeds the SQL `SELECT COUNT(*) ... WHERE recipient_id = ? AND delivered = 0`. -/
def undeliveredCount {α : Type} (s : Store α) (uid : Nat) : Nat :=
  (undeliveredFor s uid).length

/-- One comparison step of the minimum-`created_at` scan. -/
def oldestStep {α : Type} (acc : Option (MsgRow α)) (r : MsgRow α) :
    Option (MsgRow α) :=
  match acc with
  | none => some r
  | some a => if r.created_at < a.created_at then some r else acc

/-- The row selected by
`SELECT id ... ORDER BY created_at ASC LIMIT 1`: a row of minimal
`created_at` (the first such in table order, which is the unique minimum
whenever timestamps are distinct). -/
def selectOldest {α : Type} (l : List (MsgRow α)) : Option (MsgRow α) :=
  l.foldl oldestStep none

/-- Embeds `MessageStore.save_message`: a plain INSERT with `delivered = 0`,
returning `cursor.lastrowid`. -/
def save_message {α : Type} (s : Store α) (sender recipient : Option Nat)
    (room : Option String) (mtype : String) (content : Option α) :
    Nat × Store α :=
  let row : MsgRow α :=
    ⟨s.nextId, sender, recipient, room, mtype, content, false, s.clock, none⟩
  (s.nextId, ⟨s.rows ++ [row], s.nextId + 1, s.clock + 1⟩)

/-- The INSERT statement of `OfflineQueue.add_message`
(`message_type = 'offline'`, `delivered = 0`), returning
`cursor.lastrowid`. -/
def insert_offline {α : Type} (s : Store α) (uid : Nat) (msg : α)
    (sender : Option Nat) : Nat × Store α :=
  (s.nextId,
   ⟨s.rows ++ [⟨s.nextId, sender, some uid, none, "offline", some msg, false, s.clock, none⟩],
    s.nextId + 1, s.clock + 1⟩)

/-- Embeds `OfflineQueue.add_message` with `max_messages = maxM`: counts the
recipient's undelivered rows, deletes the oldest one (by `created_at`)
when the count has reached the bound, then inserts the new message.
(Deleting rows changes neither the AUTOINCREMENT counter nor the
clock-reading INSERT that follows, so the eviction is expressed as a
row-filter on the state fed to `insert_offline`.) -/
def add_message {α : Type} (maxM : Nat) (s : Store α) (uid : Nat) (msg : α)
    (sender : Option Nat) : Nat × Store α :=
  if maxM ≤ undeliveredCount s uid then
    match selectOldest (undeliveredFor s uid) with
    | none => insert_offline s uid msg sender
    | some v =>
      insert_offline { s with rows := s.rows.filter (fun r => ¬ r.id = v.id) }
        uid msg sender
  else insert_offline s uid msg sender

/-- Embeds `OfflineQueue.get_messages`:
`SELECT * ... WHERE recipient_id = ? AND delivered = 0 ORDER BY created_at ASC`.
A pure read — the call executes only SELECT statements.  (Sorting is by
`created_at`; on reachable databases the timestamps are distinct, so any
sorting algorithm realises the SQL `ORDER BY`.) -/
def get_messages {α : Type} (s : Store α) (uid : Nat) : List (MsgRow α) :=
  (undeliveredFor s uid).insertionSort (fun a b => a.created_at ≤ b.created_at)

/-- Embeds `OfflineQueue.mark_delivered` (same SQL as
`MessageStore.mark_delivered`):
`UPDATE messages SET delivered = 1, delivered_at = CURRENT_TIMESTAMP WHERE id = ?`.
Note that the UPDATE is unconditional: a second call overwrites
`delivered_at` with the current timestamp again. -/
def mark_delivered {α : Type} (s : Store α) (mid : Nat) : Store α :=
  { s with
    rows := s.rows.map (fun r =>
      if r.id = mid then { r with delivered := true, delivered_at := some s.clock } else r)
    clock := s.clock + 1 }

/-- Embeds `OfflineQueue.get_queue_size`: a pure read. -/
def get_queue_size {α : Type} (s : Store α) (uid : Nat) : Nat :=
  undeliveredCount s uid

/-- The observable effect of one `get_messages` call on the database:
the result together with the (unchanged — only SELECTs are executed)
database state. -/
def get_messages_step {α : Type} (s : Store α) (uid : Nat) :
    List (MsgRow α) × Store α :=
  (get_messages s uid, s)

/-- The observable effect of one `get_queue_size` call on the database. -/
def get_queue_size_step {α : Type} (s : Store α) (uid : Nat) : Nat × Store α :=
  (get_queue_size s uid, s)

/-- Marking every id of a list delivered, in order (the loop in
`CommunicationHub.deliver_queued_messages`). -/
def markAll {α : Type} (ids : List Nat) (s : Store α) : Store α :=
  ids.foldl mark_delivered s

/-- An enqueue event for the offline queue. -/
structure AddOp (α : Type) where
  uid : Nat
  msg : α
  sender : Option Nat
  deriving DecidableEq

/-- The database produced by a sequence of `add_message` calls on a fresh
`OfflineQueue(max_messages = maxM)`. -/
def runAdds {α : Type} (maxM : Nat) (ops : List (AddOp α)) : Store α :=
  ops.foldl (fun s op => (add_message maxM s op.uid op.msg op.sender).2) Store.init

/-! ## Room directory (`src/rooms/room_manager.py` over the `rooms` and
`room_members` tables of `src/storage/database.py`) -/

/-- One row of the `rooms` table. -/
structure Room where
  room_id : String
  room_name : String
  created_by : Nat
  is_private : Bool
  max_members : Nat
  deriving DecidableEq

/-- The `rooms` and `room_members` tables.  `room_members` has
`PRIMARY KEY (room_id, user_id)`, so a duplicate insert raises
`IntegrityError` (modelled by the membership tests below). -/
structure RoomState where
  rooms : List Room
  members : List (String × Nat)
  deriving DecidableEq

/-- The freshly initialised database: no rooms, no memberships. -/
def RoomState.init : RoomState := ⟨[], []⟩

/-- Embeds the SQL `SELECT ... FROM rooms WHERE room_id = ?`. -/
def findRoom (s : RoomState) (rid : String) : Option Room :=
  s.rooms.find? (fun r => r.room_id = rid)

/-- Embeds the SQL `SELECT COUNT(*) FROM room_members WHERE room_id = ?`. -/
def memberCount (s : RoomState) (rid : String) : Nat :=
  (s.members.filter (fun p => p.1 = rid)).length

/-- Embeds `RoomManager.create_room`: the INSERT raises `IntegrityError` when the
primary key `room_id` is taken, which the source catches and ignores. -/
def create_room (s : RoomState) (rid name : String) (createdBy : Nat)
    (isPrivate : Bool) (maxMembers : Nat) : RoomState :=
  if (findRoom s rid).isSome then s
  else { s with rooms := s.rooms ++ [⟨rid, name, createdBy, isPrivate, maxMembers⟩] }

/-- Embeds `RoomManager.join_room`: `False` when the room is unknown or full;
otherwise the INSERT succeeds, or raises `IntegrityError` on the
duplicate `(room_id, user_id)` primary key, which the source catches and
turns into `True` with no state change. -/
def join_room (s : RoomState) (rid : String) (uid : Nat) : Bool × RoomState :=
  match findRoom s rid with
  | none => (false, s)
  | some room =>
    if room.max_members ≤ memberCount s rid then (false, s)
    else if (rid, uid) ∈ s.members then (true, s)
    else (true, { s with members := s.members ++ [(rid, uid)] })

/-- Embeds `RoomManager.leave_room`:
`DELETE FROM room_members WHERE room_id = ? AND user_id = ?`. -/
def leave_room (s : RoomState) (rid : String) (uid : Nat) : RoomState :=
  { s with members := s.members.filter (fun p => ¬ p = (rid, uid)) }

/-- A room-directory event. -/
inductive RoomOp where
  | create (rid name : String) (createdBy : Nat) (isPrivate : Bool) (maxMembers : Nat)
  | join (rid : String) (uid : Nat)
  | leave (rid : String) (uid : Nat)
  deriving DecidableEq

def RoomState.step (s : RoomState) : RoomOp → RoomState
  | .create rid name c p m => create_room s rid name c p m
  | .join rid uid => (join_room s rid uid).2
  | .leave rid uid => leave_room s rid uid

/-- The room directory produced by a sequence of create/join/leave events
on the freshly initialised database. -/
def runRoomOps (ops : List RoomOp) : RoomState :=
  ops.foldl RoomState.step RoomState.init

/-! ## Message handler (`src/messaging/message_handler.py`) -/

/-- An inbound socket message, the dict received by `handle_message`.
Optional keys are `Option`; Python truthiness of a possibly-missing value
is captured by `truthyNat` / `truthyStr` below (missing, `0` and the
empty string are falsy). -/
structure RawMsg where
  sender_id : Option Nat
  recipient_id : Option Nat
  room_id : Option String
  content : Option String
  mtype : Option String
  deriving DecidableEq

/-- Python truthiness of `data.get(key)` for an integer-valued key. -/
def truthyNat : Option Nat → Bool
  | none => false
  | some n => ¬ n = 0

/-- Python truthiness of `data.get(key)` for a string-valued key. -/
def truthyStr : Option String → Bool
  | none => false
  | some s => ¬ s = ""

/-- The allowed message types of `MessageHandler.validate_message`. -/
def valid_types : List String := ["text", "image", "file", "notification"]

/-- Embeds `MessageHandler.validate_message` (the argument is a dict by
construction here, so the `isinstance` guard is vacuous): rejects when the
`content` KEY is absent (an empty value passes), and when a TRUTHY `type`
value is not in `valid_types` (a present-but-empty type passes). -/
def validate_message (m : RawMsg) : Bool :=
  if m.content.isNone then false
  else if truthyStr m.mtype ∧ ¬ (m.mtype.getD "") ∈ valid_types then false
  else true

/-- The predicate the specification states for validation: non-empty
content, and any present `type` drawn from the allowed set.  (Stated from
the spec's words, for comparison with `validate_message`.) -/
def specValidate (m : RawMsg) : Bool :=
  (match m.content with
   | some c => decide (¬ c = "")
   | none => false) &&
  (match m.mtype with
   | some t => decide (t ∈ valid_types)
   | none => true)

/-- The processed envelope built by `MessageHandler.process_message`. -/
structure ProcessedMsg where
  id : Nat
  sender_id : Option Nat
  content : String
  mtype : String
  timestamp : Nat
  recipient_id : Option Nat
  room_id : Option String
  deriving DecidableEq

/-- State of `MessageHandler`: the running message counter. -/
structure Handler where
  message_count : Nat
  deriving DecidableEq

/-- Embeds `MessageHandler.process_message` (`now` stands for `time.time()`). -/
def process_message (h : Handler) (data : RawMsg) (sender : Option Nat)
    (now : Nat) : ProcessedMsg × Handler :=
  let c := h.message_count + 1
  (⟨c, sender, data.content.getD "", data.mtype.getD "text", now,
    data.recipient_id, data.room_id⟩, ⟨c⟩)

/-! ## Communication hub (`src/hub/communication_hub.py`) and the socket
message handler (`src/api/app.py`) -/

/-- Embeds `CommunicationHub.send_to_user`: looks up the recipient's live
connections; if there is at least one, emits the message to each
connection's transport session (collecting the target `sid`s) and leaves
the database alone; otherwise persists the message through
`MessageStore.save_message(sender_id=message.get('sender_id'),
recipient_id=user_id, message_type='direct', content=message)`.
Returns the list of emitted-to session ids and the resulting database. -/
def send_to_user (cm : ConnMgr) (store : Store ProcessedMsg) (uid : Nat)
    (msg : ProcessedMsg) : List Nat × Store ProcessedMsg :=
  if (cm.get_user_connections uid).isEmpty then
    ([], (save_message store msg.sender_id (some uid) none "direct" (some msg)).2)
  else
    ((cm.get_user_connections uid).filterMap
       (fun cid => (cm.get_connection cid).map (fun i => i.sid)),
     store)

/-- Result reported to the caller of the `message` socket event. -/
inductive HMResult where
  | error (msg : String)
  | sent (message_id : Nat)
  deriving DecidableEq

/-- Embeds `handle_message` in `src/api/app.py`: rejects when `sender_id` or
`content` is falsy; otherwise processes the message and, when
`recipient_id` is truthy, routes it through
`CommunicationHub.send_to_user`.  Note: `validate_message` is NOT invoked
on this path, so the message `type` is never checked here.  Returns the
result event, the handler state, the database, and the emitted-to session
ids. -/
def handle_message (data : RawMsg) (h : Handler) (cm : ConnMgr)
    (store : Store ProcessedMsg) (now : Nat) :
    HMResult × Handler × Store ProcessedMsg × List Nat :=
  if !truthyNat data.sender_id || !truthyStr data.content then
    (.error "sender_id and content required", h, store, [])
  else if truthyNat data.recipient_id then
    (.sent (process_message h data data.sender_id now).1.id,
     (process_message h data data.sender_id now).2,
     (send_to_user cm store (data.recipient_id.getD 0)
       (process_message h data data.sender_id now).1).2,
     (send_to_user cm store (data.recipient_id.getD 0)
       (process_message h data data.sender_id now).1).1)
  else
    (.sent (process_message h data data.sender_id now).1.id,
     (process_message h data data.sender_id now).2, store, [])

/-! ## Further dictionary lemmas -/

theorem dictGet_dictDel_self {α : Type} (d : List (Nat × α)) (k : Nat) :
    dictGet (dictDel d k) k = none := by
  unfold dictGet dictDel
  rw [List.find?_eq_none.2]
  · rfl
  · intro p hp
    rcases List.mem_filter.1 hp with ⟨-, h2⟩
    simpa using of_decide_eq_true h2

theorem dictGet_dictDel_ne {α : Type} (d : List (Nat × α)) (k k' : Nat)
    (hne : ¬ k' = k) : dictGet (dictDel d k) k' = dictGet d k' := by
  unfold dictGet dictDel
  induction d with
  | nil => rfl
  | cons p t ih =>
    by_cases hp : p.1 = k
    · have hp' : ¬ p.1 = k' := by rw [hp]; exact fun h => hne h.symm
      rw [List.filter_cons_of_neg (by simpa using hp),
        List.find?_cons_of_neg _ (by simpa using hp')]
      exact ih
    · rw [List.filter_cons_of_pos (by simpa using hp)]
      by_cases hpk : p.1 = k'
      · rw [List.find?_cons_of_pos _ (by simpa using hpk),
          List.find?_cons_of_pos _ (by simpa using hpk)]
      · rw [List.find?_cons_of_neg _ (by simpa using hpk),
          List.find?_cons_of_neg _ (by simpa using hpk)]
        exact ih

/-! ## Claim C3: per-user connection limit in the pool -/

theorem pool_step_count_le (L : Nat) (hL : 1 ≤ L) (uc : List (Nat × List Nat))
    (op : PoolOp) (h : ∀ u, Pool.count uc u ≤ L) :
    ∀ u, Pool.count (Pool.step L uc op) u ≤ L := by
  cases op with
  | add uid cid =>
    show ∀ u, Pool.count (Pool.add_connection L uc uid cid).2 u ≤ L
    unfold Pool.add_connection
    by_cases hc : Pool.can_add_connection L uc uid = true
    · rw [if_pos hc]
      intro u
      by_cases hu : u = uid
      · subst hu
        unfold Pool.count
        rw [dictGet_dictSet_self]
        simp only [Option.getD_some, List.length_append, List.length_cons,
          List.length_nil]
        unfold Pool.can_add_connection at hc
        cases hg : dictGet uc u with
        | none => simpa [hg] using hL
        | some l =>
          rw [hg] at hc
          simp only [decide_eq_true_eq] at hc
          simp only [hg, Option.getD_some]
          omega
      · unfold Pool.count
        rw [dictGet_dictSet_ne _ _ _ _ hu]
        exact h u
    · rw [if_neg hc]
      exact h
  | remove uid cid =>
    show ∀ u, Pool.count (Pool.remove_connection uc uid cid) u ≤ L
    unfold Pool.remove_connection
    cases hg : dictGet uc uid with
    | none => exact h
    | some l =>
      show ∀ u, Pool.count
        (if cid ∈ l then
          if (l.erase cid).isEmpty = true then dictDel uc uid
          else dictSet uc uid (l.erase cid)
         else uc) u ≤ L
      by_cases hmem : cid ∈ l
      · rw [if_pos hmem]
        by_cases he : (l.erase cid).isEmpty = true
        · rw [if_pos he]
          intro u
          by_cases hu : u = uid
          · subst hu
            unfold Pool.count
            rw [dictGet_dictDel_self]
            simp
          · unfold Pool.count
            rw [dictGet_dictDel_ne _ _ _ hu]
            exact h u
        · rw [if_neg he]
          intro u
          by_cases hu : u = uid
          · subst hu
            unfold Pool.count
            rw [dictGet_dictSet_self]
            have h1 : (l.erase cid).length = l.length - 1 :=
              List.length_erase_of_mem hmem
            have h2 : Pool.count uc u ≤ L := h u
            unfold Pool.count at h2
            rw [hg] at h2
            simp only [Option.getD_some] at h2 ⊢
            omega
          · unfold Pool.count
            rw [dictGet_dictSet_ne _ _ _ _ hu]
            exact h u
      · rw [if_neg hmem]
        exact h

theorem pool_run_le (L : Nat) (hL : 1 ≤ L) (ops : List PoolOp) :
    ∀ uc, (∀ u, Pool.count uc u ≤ L) →
      ∀ u, Pool.count (ops.foldl (Pool.step L) uc) u ≤ L := by
  induction ops with
  | nil => intro uc h u; exact h u
  | cons op t ih =>
    intro uc h u
    exact ih (Pool.step L uc op) (pool_step_count_le L hL uc op h) u

/-- C3 (amended): for every configured limit `L ≥ 1`, a user's pool
connection count never exceeds `L` after any sequence of add/remove
events; an add while the count equals `L` returns `false` with no state
change; and after removing one of the user's connections a subsequent add
succeeds.  (For `L = 0` the claim fails — see the counterexample: the
availability check treats a user absent from the dict as always
admissible.) -/
theorem c3_pool_limit (L : Nat) (hL : 1 ≤ L) :
    (∀ ops uid, Pool.count (runPoolOps L ops) uid ≤ L) ∧
    (∀ (uc : List (Nat × List Nat)) uid cid, Pool.count uc uid = L →
      Pool.add_connection L uc uid cid = (false, uc)) ∧
    (∀ (uc : List (Nat × List Nat)) uid cid cid', Pool.count uc uid = L →
      cid ∈ (dictGet uc uid).getD [] →
      (Pool.add_connection L (Pool.remove_connection uc uid cid) uid cid').1 = true) := by
  have hfull : ∀ (uc : List (Nat × List Nat)) uid, Pool.count uc uid = L →
      ∃ l, dictGet uc uid = some l ∧ l.length = L := by
    intro uc uid hcount
    unfold Pool.count at hcount
    cases hg : dictGet uc uid with
    | none =>
      rw [hg] at hcount
      simp at hcount
      omega
    | some l =>
      rw [hg] at hcount
      exact ⟨l, rfl, by simpa using hcount⟩
  refine ⟨?_, ?_, ?_⟩
  · intro ops uid
    exact pool_run_le L hL ops []
      (fun u => by unfold Pool.count dictGet; simp) uid
  · intro uc uid cid hcount
    obtain ⟨l, hg, hlen⟩ := hfull uc uid hcount
    unfold Pool.add_connection
    have hca : Pool.can_add_connection L uc uid = false := by
      unfold Pool.can_add_connection
      rw [hg]
      simp [hlen]
    simp [hca]
  · intro uc uid cid cid' hcount hmem
    obtain ⟨l, hg, hlen⟩ := hfull uc uid hcount
    rw [hg] at hmem
    simp only [Option.getD_some] at hmem
    unfold Pool.remove_connection
    rw [hg]
    simp only [hmem, if_true]
    by_cases he : (l.erase cid).isEmpty = true
    · rw [if_pos he]
      unfold Pool.add_connection Pool.can_add_connection
      rw [dictGet_dictDel_self]
      simp
    · rw [if_neg he]
      unfold Pool.add_connection Pool.can_add_connection
      rw [dictGet_dictSet_self]
      have h1 : (l.erase cid).length = l.length - 1 :=
        List.length_erase_of_mem hmem
      have h2 : (l.erase cid).length < L := by
        rw [h1, hlen]; omega
      simp [h2]

/-- C3 counterexample: with the limit configured to `0`, an add for a
fresh user succeeds although the user's count (0) already equals the
limit, and the resulting count (1) exceeds the limit. -/
theorem c3_zero_limit_counterexample :
    Pool.count [] 1 = 0 ∧
    (Pool.add_connection 0 [] 1 1).1 = true ∧
    Pool.count (Pool.add_connection 0 [] 1 1).2 1 = 1 := by decide

/-- Witness for `c3_pool_limit` at `L = 1`. -/
theorem c3_pool_limit_witness :
    (1 ≤ 1) ∧
    Pool.count (runPoolOps 1 [.add 1 10, .add 1 11, .remove 1 10]) 1 ≤ 1 ∧
    Pool.add_connection 1 [(1, [10])] 1 11 = (false, [(1, [10])]) ∧
    (Pool.add_connection 1 (Pool.remove_connection [(1, [10])] 1 10) 1 11).1 = true :=
  ⟨by decide,
   (c3_pool_limit 1 (by decide)).1 [.add 1 10, .add 1 11, .remove 1 10] 1,
   (c3_pool_limit 1 (by decide)).2.1 [(1, [10])] 1 11 (by decide),
   (c3_pool_limit 1 (by decide)).2.2 [(1, [10])] 1 10 11 (by decide) (by decide)⟩

/-! ## Claims C4 and C7: room capacity and join idempotence -/

/-- The inductive invariant of the room directory: every room's
membership count is within its capacity, and memberships only refer to
existing rooms. -/
def RoomInv (s : RoomState) : Prop :=
  (∀ rid room, findRoom s rid = some room → memberCount s rid ≤ room.max_members) ∧
  (∀ rid, findRoom s rid = none → memberCount s rid = 0)

theorem memberCount_append (members : List (String × Nat)) (rooms : List Room)
    (a : String) (b : Nat) (rid : String) :
    memberCount ⟨rooms, members ++ [(a, b)]⟩ rid =
      memberCount ⟨rooms, members⟩ rid + (if a = rid then 1 else 0) := by
  unfold memberCount
  rw [List.filter_append]
  by_cases hx : a = rid
  · simp [hx]
  · simp [hx]

theorem room_step_preserves (s : RoomState) (op : RoomOp) (h : RoomInv s) :
    RoomInv (s.step op) := by
  obtain ⟨h1, h2⟩ := h
  cases op with
  | create rid0 name c p m =>
    show RoomInv (create_room s rid0 name c p m)
    unfold create_room
    by_cases hex : (findRoom s rid0).isSome
    · rw [if_pos hex]
      exact ⟨h1, h2⟩
    · rw [if_neg hex]
      have hnone : findRoom s rid0 = none := by
        rwa [Option.not_isSome_iff_eq_none] at hex
      have hfind : ∀ rid, findRoom ⟨s.rooms ++ [⟨rid0, name, c, p, m⟩], s.members⟩ rid =
          (findRoom s rid).or (if rid0 = rid then some ⟨rid0, name, c, p, m⟩ else none) := by
        intro rid
        unfold findRoom
        rw [List.find?_append]
        by_cases hr : rid0 = rid
        · simp [List.find?, hr]
        · simp [List.find?, hr]
      have hcount : ∀ rid, memberCount ⟨s.rooms ++ [⟨rid0, name, c, p, m⟩], s.members⟩ rid =
          memberCount s rid := by
        intro rid; rfl
      constructor
      · intro rid room hroom
        rw [hfind rid] at hroom
        rw [hcount]
        cases hf : findRoom s rid with
        | some r =>
          rw [hf] at hroom
          simp only [Option.or_some] at hroom
          cases hroom
          exact h1 rid room hf
        | none =>
          rw [hf] at hroom
          simp only [Option.or_none, Option.none_or] at hroom
          by_cases hr : rid0 = rid
          · rw [if_pos hr] at hroom
            have hcz : memberCount s rid = 0 := h2 rid hf
            rw [hcz]
            exact Nat.zero_le _
          · rw [if_neg hr] at hroom
            exact absurd hroom (by simp)
      · intro rid hroom
        rw [hfind rid] at hroom
        rw [hcount]
        cases hf : findRoom s rid with
        | some r => rw [hf] at hroom; simp at hroom
        | none => exact h2 rid hf
  | join rid0 uid =>
    show RoomInv (join_room s rid0 uid).2
    unfold join_room
    cases hf0 : findRoom s rid0 with
    | none => exact ⟨h1, h2⟩
    | some room0 =>
      show RoomInv (if room0.max_members ≤ memberCount s rid0 then (false, s)
        else if (rid0, uid) ∈ s.members then (true, s)
        else (true, { s with members := s.members ++ [(rid0, uid)] })).2
      by_cases hcap : room0.max_members ≤ memberCount s rid0
      · rw [if_pos hcap]; exact ⟨h1, h2⟩
      · rw [if_neg hcap]
        by_cases hmem : (rid0, uid) ∈ s.members
        · rw [if_pos hmem]; exact ⟨h1, h2⟩
        · rw [if_neg hmem]
          have hfind : ∀ rid, findRoom { s with members := s.members ++ [(rid0, uid)] } rid =
              findRoom s rid := fun _ => rfl
          constructor
          · intro rid room hroom
            rw [hfind] at hroom
            have hc : memberCount { s with members := s.members ++ [(rid0, uid)] } rid
                = memberCount s rid + (if rid0 = rid then 1 else 0) :=
              memberCount_append s.members s.rooms rid0 uid rid
            by_cases hr : rid0 = rid
            · subst hr
              rw [hf0] at hroom
              have hre : room0 = room := by injection hroom
              subst hre
              rw [hc, if_pos rfl]
              have hlt := Nat.lt_of_not_le hcap
              omega
            · rw [hc, if_neg hr]
              simpa using h1 rid room hroom
          · intro rid hroom
            rw [hfind] at hroom
            have hc : memberCount { s with members := s.members ++ [(rid0, uid)] } rid
                = memberCount s rid + (if rid0 = rid then 1 else 0) :=
              memberCount_append s.members s.rooms rid0 uid rid
            rw [hc]
            have hr : ¬ rid0 = rid := by
              intro he
              rw [he, hroom] at hf0
              cases hf0
            rw [if_neg hr]
            simpa using h2 rid hroom
  | leave rid0 uid =>
    show RoomInv (leave_room s rid0 uid)
    unfold leave_room
    have hfind : ∀ rid, findRoom
        { s with members := s.members.filter (fun p => ¬ p = (rid0, uid)) } rid =
        findRoom s rid := fun _ => rfl
    have hcount : ∀ rid, memberCount
        { s with members := s.members.filter (fun p => ¬ p = (rid0, uid)) } rid ≤
        memberCount s rid := by
      intro rid
      unfold memberCount
      exact List.Sublist.length_le
        (List.Sublist.filter _ (List.filter_sublist s.members))
    constructor
    · intro rid room hroom
      rw [hfind] at hroom
      exact (hcount rid).trans (h1 rid room hroom)
    · intro rid hroom
      rw [hfind] at hroom
      have := (hcount rid).trans_eq (h2 rid hroom)
      omega

theorem room_fold_inv (ops : List RoomOp) :
    ∀ s, RoomInv s → RoomInv (ops.foldl RoomState.step s) := by
  induction ops with
  | nil => intro s h; exact h
  | cons op t ih =>
    intro s h
    exact ih (s.step op) (room_step_preserves s op h)

theorem room_run_inv (ops : List RoomOp) : RoomInv (runRoomOps ops) := by
  refine room_fold_inv ops RoomState.init ⟨?_, ?_⟩
  · intro rid room hroom
    cases hroom
  · intro rid _
    rfl

/-- C4: after any sequence of create/join/leave operations from the
fresh database, every room's membership count is within its
`max_members`; a join on an unknown room fails with no state change; and
a join on a room whose count has reached `max_members` fails with no
state change. -/
theorem c4_room_capacity :
    (∀ ops rid room, findRoom (runRoomOps ops) rid = some room →
      memberCount (runRoomOps ops) rid ≤ room.max_members) ∧
    (∀ (s : RoomState) rid uid, findRoom s rid = none →
      join_room s rid uid = (false, s)) ∧
    (∀ (s : RoomState) rid uid room, findRoom s rid = some room →
      room.max_members ≤ memberCount s rid →
      join_room s rid uid = (false, s)) := by
  refine ⟨?_, ?_, ?_⟩
  · intro ops rid room hroom
    exact (room_run_inv ops).1 rid room hroom
  · intro s rid uid hnone
    unfold join_room
    rw [hnone]
  · intro s rid uid room hroom hcap
    unfold join_room
    rw [hroom]
    show (if room.max_members ≤ memberCount s rid then (false, s)
      else if (rid, uid) ∈ s.members then (true, s)
      else (true, { s with members := s.members ++ [(rid, uid)] })) = (false, s)
    rw [if_pos hcap]

/-- The spec scenario for C4: room `general` with capacity 2; users 1 and
2 join; user 3 is rejected and the count stays 2. -/
theorem c4_room_capacity_witness :
    (findRoom (runRoomOps [.create "general" "General" 1 false 2,
        .join "general" 1, .join "general" 2, .join "general" 3]) "general"
      = some ⟨"general", "General", 1, false, 2⟩) ∧
    memberCount (runRoomOps [.create "general" "General" 1 false 2,
        .join "general" 1, .join "general" 2, .join "general" 3]) "general" ≤ 2 ∧
    join_room ⟨[⟨"r", "R", 1, false, 2⟩], []⟩ "q" 7 = (false, ⟨[⟨"r", "R", 1, false, 2⟩], []⟩) ∧
    join_room ⟨[⟨"r", "R", 1, false, 2⟩], [("r", 1), ("r", 2)]⟩ "r" 3
      = (false, ⟨[⟨"r", "R", 1, false, 2⟩], [("r", 1), ("r", 2)]⟩) :=
  ⟨by decide,
   c4_room_capacity.1 [.create "general" "General" 1 false 2,
     .join "general" 1, .join "general" 2, .join "general" 3] "general"
     ⟨"general", "General", 1, false, 2⟩ (by decide),
   c4_room_capacity.2.1 ⟨[⟨"r", "R", 1, false, 2⟩], []⟩ "q" 7 (by decide),
   c4_room_capacity.2.2 ⟨[⟨"r", "R", 1, false, 2⟩], [("r", 1), ("r", 2)]⟩ "r" 3
     ⟨"r", "R", 1, false, 2⟩ (by decide) (by decide)⟩

/-- C7 counterexample: in a room at full capacity the second join of the
SAME user is rejected (`False`), because the capacity check runs before
the duplicate-membership check — the claim says a repeated join always
reports success.  Here: room `general` with `max_members = 1`; user 1
joins successfully; user 1's second join returns `False`. -/
theorem c7_rejoin_at_capacity_counterexample :
    (join_room (create_room RoomState.init "general" "General" 1 false 1) "general" 1).1
      = true ∧
    (join_room ((join_room (create_room RoomState.init "general" "General" 1 false 1)
        "general" 1).2) "general" 1).1 = false := by decide

/-- C7 (amended): a repeated join of an existing member never changes the
membership set or the member count, and it reports success exactly when
the room's member count is still below `max_members`; at full capacity it
reports failure (the existing membership itself counts toward capacity),
still with no state change. -/
theorem c7_join_idempotent (s : RoomState) (rid : String) (uid : Nat)
    (room : Room) (hroom : findRoom s rid = some room)
    (hmem : (rid, uid) ∈ s.members) :
    (join_room s rid uid).2 = s ∧
    ((join_room s rid uid).1 = true ↔ memberCount s rid < room.max_members) := by
  unfold join_room
  rw [hroom]
  show ((if room.max_members ≤ memberCount s rid then (false, s)
    else if (rid, uid) ∈ s.members then (true, s)
    else (true, { s with members := s.members ++ [(rid, uid)] })).2 = s ∧
    ((if room.max_members ≤ memberCount s rid then (false, s)
    else if (rid, uid) ∈ s.members then (true, s)
    else (true, { s with members := s.members ++ [(rid, uid)] })).1 = true ↔
      memberCount s rid < room.max_members))
  by_cases hcap : room.max_members ≤ memberCount s rid
  · rw [if_pos hcap]
    constructor
    · rfl
    · constructor
      · intro h
        cases h
      · intro h
        exact absurd hcap (Nat.not_le_of_lt h)
  · rw [if_neg hcap, if_pos hmem]
    exact ⟨rfl, by simpa using Nat.lt_of_not_le hcap⟩

/-- Witness for `c7_join_idempotent`: a second join below capacity
reports success and changes nothing. -/
theorem c7_join_idempotent_witness :
    (findRoom ⟨[⟨"general", "General", 1, false, 2⟩], [("general", 1)]⟩ "general"
      = some ⟨"general", "General", 1, false, 2⟩) ∧
    ("general", 1) ∈ [("general", (1 : Nat))] ∧
    (join_room ⟨[⟨"general", "General", 1, false, 2⟩], [("general", 1)]⟩ "general" 1).2
      = ⟨[⟨"general", "General", 1, false, 2⟩], [("general", 1)]⟩ ∧
    ((join_room ⟨[⟨"general", "General", 1, false, 2⟩], [("general", 1)]⟩ "general" 1).1 = true ↔
      memberCount ⟨[⟨"general", "General", 1, false, 2⟩], [("general", 1)]⟩ "general" < 2) :=
  ⟨by decide, by decide,
   (c7_join_idempotent ⟨[⟨"general", "General", 1, false, 2⟩], [("general", 1)]⟩
     "general" 1 ⟨"general", "General", 1, false, 2⟩ (by decide) (by decide)).1,
   (c7_join_idempotent ⟨[⟨"general", "General", 1, false, 2⟩], [("general", 1)]⟩
     "general" 1 ⟨"general", "General", 1, false, 2⟩ (by decide) (by decide)).2⟩

/-! ## Claim C9: duplicate connection registration -/

/-- C9 counterexample: with connection id 5 already registered (for user
1, session 70), registering id 5 again (for user 2, session 71) does NOT
fail and does NOT leave the registry unchanged — the record is
overwritten and the id is appended to user 2's list, while user 1's list
still holds the now-stale id.  The source has no duplicate check at all. -/
theorem c9_duplicate_registration_counterexample :
    (ConnMgr.get_connection ⟨[(5, ⟨5, 1, 70⟩)], [(1, [5])]⟩ 5).isSome = true ∧
    ConnMgr.add_connection ⟨[(5, ⟨5, 1, 70⟩)], [(1, [5])]⟩ 5 2 71
      = ⟨[(5, ⟨5, 2, 71⟩)], [(1, [5]), (2, [5])]⟩ ∧
    ¬ ConnMgr.add_connection ⟨[(5, ⟨5, 1, 70⟩)], [(1, [5])]⟩ 5 2 71
      = ⟨[(5, ⟨5, 1, 70⟩)], [(1, [5])]⟩ := by decide

/-- C9 (amended): registering under an already-present `connection_id`
does not fail: the stored record for that id is overwritten with the new
user and session, the id is appended (again) to the new user's list, and
every other user's list is untouched (so a previous owner keeps a stale
entry). -/
theorem c9_duplicate_overwrites (s : ConnMgr) (cid uid sid : Nat)
    (_hdup : (s.get_connection cid).isSome = true) :
    (s.add_connection cid uid sid).get_connection cid = some ⟨cid, uid, sid⟩ ∧
    (s.add_connection cid uid sid).get_user_connections uid
      = s.get_user_connections uid ++ [cid] ∧
    ∀ u, ¬ u = uid → (s.add_connection cid uid sid).get_user_connections u
      = s.get_user_connections u := by
  refine ⟨?_, ?_, ?_⟩
  · show dictGet (dictSet s.connections cid ⟨cid, uid, sid⟩) cid = some ⟨cid, uid, sid⟩
    exact dictGet_dictSet_self _ _ _
  · show (dictGet (dictSet s.user_connections uid
        (((dictGet s.user_connections uid).getD []) ++ [cid])) uid).getD []
      = (dictGet s.user_connections uid).getD [] ++ [cid]
    rw [dictGet_dictSet_self]
    rfl
  · intro u hu
    show (dictGet (dictSet s.user_connections uid
        (((dictGet s.user_connections uid).getD []) ++ [cid])) u).getD []
      = (dictGet s.user_connections u).getD []
    rw [dictGet_dictSet_ne _ _ _ _ hu]

/-- Witness for `c9_duplicate_overwrites` at the counterexample state. -/
theorem c9_duplicate_overwrites_witness :
    ((ConnMgr.get_connection ⟨[(5, ⟨5, 1, 70⟩)], [(1, [5])]⟩ 5).isSome = true) ∧
    (ConnMgr.add_connection ⟨[(5, ⟨5, 1, 70⟩)], [(1, [5])]⟩ 5 2 71).get_connection 5
      = some ⟨5, 2, 71⟩ :=
  ⟨by decide,
   (c9_duplicate_overwrites ⟨[(5, ⟨5, 1, 70⟩)], [(1, [5])]⟩ 5 2 71 (by decide)).1⟩

/-! ## Claim C8: `mark_delivered` transitions -/

/-- C8 counterexample: enqueue one message (id 1) and call
`mark_delivered 1` twice at successive clock ticks.  The second call is
NOT a no-op on the stored row: it overwrites `delivered_at` (some 1 after
the first call, some 2 after the second), because the UPDATE
unconditionally sets `delivered_at = CURRENT_TIMESTAMP`. -/
theorem c8_mark_delivered_twice_counterexample :
    ((mark_delivered (add_message 100 (Store.init (α := Nat)) 1 42 none).2 1).rows.map
        (fun r => r.delivered_at)) = [some 1] ∧
    ((mark_delivered (mark_delivered (add_message 100 (Store.init (α := Nat)) 1 42 none).2 1) 1).rows.map
        (fun r => r.delivered_at)) = [some 2] ∧
    ¬ (mark_delivered (mark_delivered (add_message 100 (Store.init (α := Nat)) 1 42 none).2 1) 1).rows
      = (mark_delivered (add_message 100 (Store.init (α := Nat)) 1 42 none).2 1).rows := by
  decide

/-- C8 (amended): `mark_delivered` sets `delivered` to true and
`delivered_at` to the current timestamp on every row with the given id,
leaves all other rows untouched, and never reverses a delivery:
`delivered` never returns to false and `delivered_at` never returns to
null.  However, a repeated call is NOT a strict no-op — it overwrites
`delivered_at` with the (later) current timestamp again. -/
theorem c8_mark_delivered_transition (s : Store Nat) (mid : Nat) :
    (∀ r ∈ s.rows, r.id = mid →
      ({ r with delivered := true, delivered_at := some s.clock } : MsgRow Nat)
        ∈ (mark_delivered s mid).rows) ∧
    (∀ r ∈ s.rows, ¬ r.id = mid → r ∈ (mark_delivered s mid).rows) ∧
    (∀ r' ∈ (mark_delivered s mid).rows, ∃ r ∈ s.rows,
      r'.id = r.id ∧
      (r.delivered = true → r'.delivered = true) ∧
      (r.delivered_at.isSome = true → r'.delivered_at.isSome = true) ∧
      r'.delivered = (if r.id = mid then true else r.delivered) ∧
      r'.delivered_at = (if r.id = mid then some s.clock else r.delivered_at)) := by
  refine ⟨?_, ?_, ?_⟩
  · intro r hr hid
    have := List.mem_map_of_mem
      (fun r => if r.id = mid then
        { r with delivered := true, delivered_at := some s.clock } else r) hr
    simp only [if_pos hid] at this
    exact this
  · intro r hr hid
    have := List.mem_map_of_mem
      (fun r => if r.id = mid then
        { r with delivered := true, delivered_at := some s.clock } else r) hr
    simp only [if_neg hid] at this
    exact this
  · intro r' hr'
    obtain ⟨r, hr, hfr⟩ := List.mem_map.1 hr'
    refine ⟨r, hr, ?_⟩
    by_cases hid : r.id = mid
    · rw [if_pos hid] at hfr
      subst hfr
      exact ⟨rfl, fun _ => rfl, fun _ => rfl, by rw [if_pos hid], by rw [if_pos hid]⟩
    · rw [if_neg hid] at hfr
      subst hfr
      exact ⟨rfl, fun h => h, fun h => h, by rw [if_neg hid], by rw [if_neg hid]⟩

/-- Witness for `c8_mark_delivered_transition`: one enqueued message,
marked delivered once. -/
theorem c8_mark_delivered_transition_witness :
    (⟨1, none, some 1, none, "offline", some 42, false, 0, none⟩ : MsgRow Nat)
        ∈ (add_message 100 (Store.init (α := Nat)) 1 42 none).2.rows ∧
    ((1 : Nat) = 1) ∧
    ({ (⟨1, none, some 1, none, "offline", some 42, false, 0, none⟩ : MsgRow Nat) with
        delivered := true,
        delivered_at := some (add_message 100 (Store.init (α := Nat)) 1 42 none).2.clock }
      : MsgRow Nat)
      ∈ (mark_delivered (add_message 100 (Store.init (α := Nat)) 1 42 none).2 1).rows :=
  ⟨by decide, by decide,
   (c8_mark_delivered_transition (add_message 100 (Store.init (α := Nat)) 1 42 none).2 1).1
     ⟨1, none, some 1, none, "offline", some 42, false, 0, none⟩ (by decide) (by decide)⟩

/-! ## Claims C5 and C10: draining the offline queue -/

instance instIsTotalMsgRowLe {α : Type} :
    IsTotal (MsgRow α) (fun a b => a.created_at ≤ b.created_at) :=
  ⟨fun a b => Nat.le_total a.created_at b.created_at⟩

instance instIsTransMsgRowLe {α : Type} :
    IsTrans (MsgRow α) (fun a b => a.created_at ≤ b.created_at) :=
  ⟨fun _ _ _ h1 h2 => Nat.le_trans h1 h2⟩

/-- Rows surviving `markAll` descend from original rows: ids and
recipients are preserved, and a row that is still undelivered afterwards
was undelivered before and its id was not in the marked list. -/
theorem markAll_spec {α : Type} (ids : List Nat) :
    ∀ (s : Store α), ∀ r' ∈ (markAll ids s).rows, ∃ r ∈ s.rows,
      r'.id = r.id ∧ r'.recipient_id = r.recipient_id ∧
      (r'.delivered = false → r.delivered = false ∧ ¬ r.id ∈ ids) := by
  induction ids with
  | nil =>
    intro s r' hr'
    exact ⟨r', hr', rfl, rfl, fun h => ⟨h, List.not_mem_nil _⟩⟩
  | cons i t ih =>
    intro s r' hr'
    have hstep : markAll (i :: t) s = markAll t (mark_delivered s i) := rfl
    rw [hstep] at hr'
    obtain ⟨r1, hr1, hid1, hrec1, hdel1⟩ := ih (mark_delivered s i) r' hr'
    obtain ⟨r0, hr0, hfr⟩ := List.mem_map.1 hr1
    by_cases h0 : r0.id = i
    · rw [if_pos h0] at hfr
      refine ⟨r0, hr0, ?_, ?_, ?_⟩
      · rw [hid1, ← hfr]
      · rw [hrec1, ← hfr]
      · intro hy
        obtain ⟨hd, -⟩ := hdel1 hy
        rw [← hfr] at hd
        cases hd
    · rw [if_neg h0] at hfr
      subst hfr
      refine ⟨r0, hr0, hid1, hrec1, ?_⟩
      intro hy
      obtain ⟨hd, hni⟩ := hdel1 hy
      refine ⟨hd, ?_⟩
      intro hmem
      rcases List.mem_cons.1 hmem with hc | hc
      · exact h0 hc
      · exact hni hc

/-- C5: draining a recipient's queue returns the undelivered messages in
non-decreasing `created_at` order, the result is exactly (a permutation
of) the recipient's undelivered rows, and after marking every returned
message delivered the recipient's queue size is 0. -/
theorem c5_drain_order_and_empty (s : Store Nat) (uid : Nat) :
    List.Pairwise (fun a b : MsgRow Nat => a.created_at ≤ b.created_at)
      (get_messages s uid) ∧
    (get_messages s uid).Perm (undeliveredFor s uid) ∧
    get_queue_size (markAll ((get_messages s uid).map (fun r => r.id)) s) uid = 0 := by
  have hperm : (get_messages s uid).Perm (undeliveredFor s uid) :=
    List.perm_insertionSort _ _
  refine ⟨List.sorted_insertionSort _ _, hperm, ?_⟩
  show undeliveredCount (markAll ((get_messages s uid).map (fun r => r.id)) s) uid = 0
  unfold undeliveredCount undeliveredFor
  rw [List.length_eq_zero, List.filter_eq_nil_iff]
  intro r' hr'
  simp only [decide_eq_true_eq, not_and]
  intro hrec hdel
  obtain ⟨r, hr, hid, hrecs, hdels⟩ :=
    markAll_spec ((get_messages s uid).map (fun r => r.id)) s r' hr'
  obtain ⟨hrdel, hni⟩ := hdels hdel
  apply hni
  have hmemu : r ∈ undeliveredFor s uid := by
    unfold undeliveredFor
    refine List.mem_filter.2 ⟨hr, ?_⟩
    simp only [decide_eq_true_eq]
    exact ⟨hrecs ▸ hrec, hrdel⟩
  have : r.id ∈ (undeliveredFor s uid).map (fun r => r.id) :=
    List.mem_map_of_mem _ hmemu
  exact ((hperm.map (fun r => r.id)).mem_iff).2 this

/-- C10: `get_messages` and `get_queue_size` are pure reads — they return
the database unchanged (they execute only SELECT statements) — and an
undelivered message for a recipient can only leave the undelivered set
through `mark_delivered` on its id or through capacity eviction of the
oldest row during `add_message`: marking a different id keeps the row
untouched, and an enqueue below capacity (or whose evicted oldest row is
a different one) keeps the row as well. -/
theorem c10_drain_is_pure_read (s : Store Nat) (uid : Nat) :
    (get_messages_step s uid).2 = s ∧
    (get_queue_size_step s uid).2 = s ∧
    (∀ r ∈ s.rows, r.recipient_id = some uid → r.delivered = false →
      (∀ mid, ¬ mid = r.id → r ∈ (mark_delivered s mid).rows) ∧
      (∀ maxM u msg snd,
        (undeliveredCount s u < maxM ∨
          ∀ v, selectOldest (undeliveredFor s u) = some v → ¬ v.id = r.id) →
        r ∈ (add_message maxM s u msg snd).2.rows)) := by
  refine ⟨rfl, rfl, ?_⟩
  intro r hr _hrec _hdel
  constructor
  · intro mid hmid
    have hne : ¬ r.id = mid := fun h => hmid h.symm
    have := List.mem_map_of_mem
      (fun x => if x.id = mid then
        { x with delivered := true, delivered_at := some s.clock } else x) hr
    simp only [if_neg hne] at this
    exact this
  · intro maxM u msg snd hcond
    unfold add_message
    by_cases hcap : maxM ≤ undeliveredCount s u
    · rw [if_pos hcap]
      cases hsel : selectOldest (undeliveredFor s u) with
      | none =>
        exact List.mem_append_left _ hr
      | some v =>
        rcases hcond with hlt | hvid
        · omega
        · refine List.mem_append_left _ (List.mem_filter.2 ⟨hr, ?_⟩)
          simp only [decide_eq_true_eq]
          intro heq
          exact hvid v hsel (heq ▸ rfl)
    · rw [if_neg hcap]
      exact List.mem_append_left _ hr

/-- Witness for `c10_drain_is_pure_read`: a one-row database; marking a
different id and enqueueing below capacity keep the row undelivered. -/
theorem c10_drain_is_pure_read_witness :
    ((⟨1, none, some 1, none, "offline", some 42, false, 0, none⟩ : MsgRow Nat)
        ∈ (⟨[⟨1, none, some 1, none, "offline", some 42, false, 0, none⟩], 2, 1⟩ : Store Nat).rows) ∧
    (⟨1, none, some 1, none, "offline", some 42, false, 0, none⟩ : MsgRow Nat)
        ∈ (mark_delivered ⟨[⟨1, none, some 1, none, "offline", some 42, false, 0, none⟩], 2, 1⟩ 9).rows ∧
    (⟨1, none, some 1, none, "offline", some 42, false, 0, none⟩ : MsgRow Nat)
        ∈ (add_message 100 (⟨[⟨1, none, some 1, none, "offline", some 42, false, 0, none⟩], 2, 1⟩ : Store Nat) 1 7 none).2.rows :=
  ⟨by decide,
   ((c10_drain_is_pure_read ⟨[⟨1, none, some 1, none, "offline", some 42, false, 0, none⟩], 2, 1⟩ 1).2.2
     ⟨1, none, some 1, none, "offline", some 42, false, 0, none⟩ (by decide) (by decide) (by decide)).1
     9 (by decide),
   ((c10_drain_is_pure_read ⟨[⟨1, none, some 1, none, "offline", some 42, false, 0, none⟩], 2, 1⟩ 1).2.2
     ⟨1, none, some 1, none, "offline", some 42, false, 0, none⟩ (by decide) (by decide) (by decide)).2
     100 1 7 none (Or.inl (by decide))⟩

/-! ## Claim C2: bounded offline queue with oldest-first eviction -/

theorem pairwise_rel_of_mem {β : Type} {R : β → β → Prop} :
    ∀ l : List β, List.Pairwise R l →
      ∀ a ∈ l, ∀ b ∈ l, ¬ a = b → R a b ∨ R b a := by
  intro l
  induction l with
  | nil =>
    intro _ a ha
    cases ha
  | cons x t ih =>
    intro hl a ha b hb hne
    have hx : ∀ y ∈ t, R x y := (List.pairwise_cons.1 hl).1
    have ht : List.Pairwise R t := (List.pairwise_cons.1 hl).2
    rcases List.mem_cons.1 ha with ha1 | ha2
    · rcases List.mem_cons.1 hb with hb1 | hb2
      · exact absurd (ha1.trans hb1.symm) hne
      · exact Or.inl (ha1 ▸ hx b hb2)
    · rcases List.mem_cons.1 hb with hb1 | hb2
      · exact Or.inr (hb1 ▸ hx a ha2)
      · exact ih ht a ha2 b hb2 hne

theorem countP_of_filter {β : Type} (p q : β → Bool) (l : List β) :
    List.countP p (l.filter q) = l.countP (fun a => p a && q a) := by
  induction l with
  | nil => rfl
  | cons x t ih =>
    rw [List.filter_cons]
    by_cases hx : q x = true
    · rw [if_pos hx, List.countP_cons, List.countP_cons, ih, hx]
      simp
    · rw [if_neg hx, List.countP_cons, ih]
      have hqx : q x = false := by revert hx; cases q x <;> simp
      rw [hqx]
      simp

theorem countP_and_lt {β : Type} (p q : β → Bool) (v : β) :
    ∀ l : List β, v ∈ l → p v = true → q v = false →
      l.countP (fun a => p a && q a) < l.countP p := by
  intro l
  induction l with
  | nil =>
    intro h
    cases h
  | cons x t ih =>
    intro hv hP hQ
    rw [List.countP_cons, List.countP_cons]
    have hmono : t.countP (fun a => p a && q a) ≤ t.countP p :=
      List.countP_mono_left (fun a _ h => by
        revert h; cases hpa : p a <;> simp)
    rcases List.mem_cons.1 hv with rfl | hv'
    · have hand : (p v && q v) = false := by simp [hP, hQ]
      rw [hand, hP, if_neg (by simp : ¬ false = true), if_pos rfl]
      omega
    · have := ih hv' hP hQ
      have hle : (if (p x && q x) = true then 1 else 0) ≤ (if p x = true then 1 else 0) := by
        cases hpx : p x <;> cases hqx : q x <;> simp
      omega

theorem countP_and_eq {β : Type} (p q : β → Bool) (v : β) :
    ∀ l : List β, l.Nodup → v ∈ l → p v = true → q v = false →
      (∀ a ∈ l, ¬ a = v → q a = true) →
      l.countP (fun a => p a && q a) + 1 = l.countP p := by
  intro l
  induction l with
  | nil =>
    intro _ h
    cases h
  | cons x t ih =>
    intro hnd hv hP hQ hQa
    rw [List.countP_cons, List.countP_cons]
    rcases List.mem_cons.1 hv with rfl | hv'
    · have hvt : v ∉ t := (List.nodup_cons.1 hnd).1
      have ht : t.countP (fun a => p a && q a) = t.countP p := by
        apply List.countP_congr
        intro a ha
        have hane : ¬ a = v := fun h => hvt (h ▸ ha)
        rw [hQa a (List.mem_cons_of_mem _ ha) hane]
        simp
      have hand : (p v && q v) = false := by simp [hP, hQ]
      rw [ht, hand, hP, if_neg (by simp : ¬ false = true), if_pos rfl]
    · have hxne : ¬ x = v := by
        intro h
        exact (List.nodup_cons.1 hnd).1 (h ▸ hv')
      have hQx : q x = true := hQa x (List.mem_cons_self _ _) hxne
      have := ih (List.nodup_cons.1 hnd).2 hv' hP hQ
        (fun a ha hne => hQa a (List.mem_cons_of_mem _ ha) hne)
      rw [hQx]
      simp only [Bool.and_true]
      omega

theorem foldl_oldestStep {α : Type} :
    ∀ (l : List (MsgRow α)) (a : MsgRow α),
      ∃ v, l.foldl oldestStep (some a) = some v ∧
        (v ∈ l ∨ v = a) ∧ v.created_at ≤ a.created_at ∧
        ∀ r ∈ l, v.created_at ≤ r.created_at := by
  intro l
  induction l with
  | nil =>
    intro a
    exact ⟨a, rfl, Or.inr rfl, Nat.le_refl _,
      fun r hr => absurd hr (List.not_mem_nil r)⟩
  | cons b t ih =>
    intro a
    by_cases hb : b.created_at < a.created_at
    · obtain ⟨v, hv, hmem, hle, hall⟩ := ih b
      refine ⟨v, ?_, ?_, ?_, ?_⟩
      · show t.foldl oldestStep (oldestStep (some a) b) = some v
        rw [show oldestStep (some a) b = some b from by
          simp [oldestStep, hb]]
        exact hv
      · rcases hmem with h | h
        · exact Or.inl (List.mem_cons_of_mem b h)
        · exact Or.inl (h ▸ List.mem_cons_self b t)
      · exact Nat.le_trans hle (Nat.le_of_lt hb)
      · intro r hr
        rcases List.mem_cons.1 hr with rfl | hr
        · exact hle
        · exact hall r hr
    · obtain ⟨v, hv, hmem, hle, hall⟩ := ih a
      refine ⟨v, ?_, ?_, ?_, ?_⟩
      · show t.foldl oldestStep (oldestStep (some a) b) = some v
        rw [show oldestStep (some a) b = some a from by
          simp [oldestStep, hb]]
        exact hv
      · rcases hmem with h | h
        · exact Or.inl (List.mem_cons_of_mem b h)
        · exact Or.inr h
      · exact hle
      · intro r hr
        rcases List.mem_cons.1 hr with rfl | hr
        · exact Nat.le_trans hle (Nat.le_of_not_lt hb)
        · exact hall r hr

theorem selectOldest_spec {α : Type} (l : List (MsgRow α)) (v : MsgRow α)
    (h : selectOldest l = some v) :
    v ∈ l ∧ ∀ r ∈ l, v.created_at ≤ r.created_at := by
  cases l with
  | nil => cases h
  | cons x t =>
    obtain ⟨w, hw, hmem, hle, hall⟩ := foldl_oldestStep t x
    have hsel : selectOldest (x :: t) = t.foldl oldestStep (some x) := rfl
    rw [hsel, hw] at h
    injection h with he
    subst he
    constructor
    · rcases hmem with h1 | h1
      · exact List.mem_cons_of_mem x h1
      · exact h1 ▸ List.mem_cons_self x t
    · intro r hr
      rcases List.mem_cons.1 hr with rfl | hr
      · exact hle
      · exact hall r hr

theorem selectOldest_isSome {α : Type} (l : List (MsgRow α)) (hne : ¬ l = []) :
    (selectOldest l).isSome = true := by
  cases l with
  | nil => exact absurd rfl hne
  | cons x t =>
    obtain ⟨w, hw, -, -, -⟩ := foldl_oldestStep t x
    show (t.foldl oldestStep (oldestStep none x)).isSome = true
    rw [show oldestStep (α := α) none x = some x from rfl, hw]
    rfl

/-- The inductive invariant of reachable `messages` tables: strictly
increasing timestamps along the table (the logical-clock idealisation of
`CURRENT_TIMESTAMP`), timestamps below the clock, pairwise-distinct ids,
ids below the AUTOINCREMENT counter. -/
def StoreInv {α : Type} (s : Store α) : Prop :=
  List.Pairwise (fun a b : MsgRow α => a.created_at < b.created_at) s.rows ∧
  (∀ r ∈ s.rows, r.created_at < s.clock) ∧
  List.Pairwise (fun a b : MsgRow α => ¬ a.id = b.id) s.rows ∧
  (∀ r ∈ s.rows, r.id < s.nextId)

instance {α : Type} [DecidableEq α] (s : Store α) : Decidable (StoreInv s) := by
  unfold StoreInv
  infer_instance

theorem insert_offline_rows {α : Type} (s : Store α) (uid : Nat) (msg : α)
    (snd : Option Nat) :
    (insert_offline s uid msg snd).2.rows = s.rows ++
      [⟨s.nextId, snd, some uid, none, "offline", some msg, false, s.clock, none⟩] :=
  rfl

theorem insert_offline_clock {α : Type} (s : Store α) (uid : Nat) (msg : α)
    (snd : Option Nat) : (insert_offline s uid msg snd).2.clock = s.clock + 1 :=
  rfl

theorem insert_offline_nextId {α : Type} (s : Store α) (uid : Nat) (msg : α)
    (snd : Option Nat) : (insert_offline s uid msg snd).2.nextId = s.nextId + 1 :=
  rfl

theorem storeInv_insert {α : Type} (s : Store α) (uid : Nat) (msg : α)
    (snd : Option Nat) (h : StoreInv s) :
    StoreInv (insert_offline s uid msg snd).2 := by
  obtain ⟨h1, h2, h3, h4⟩ := h
  refine ⟨?_, ?_, ?_, ?_⟩
  · rw [insert_offline_rows, List.pairwise_append]
    refine ⟨h1, List.pairwise_singleton _ _, ?_⟩
    intro a ha b hb
    rw [List.mem_singleton.1 hb]
    exact h2 a ha
  · intro r hr
    rw [insert_offline_rows] at hr
    rw [insert_offline_clock]
    rcases List.mem_append.1 hr with h | h
    · exact Nat.lt_trans (h2 r h) (Nat.lt_succ_self _)
    · rw [List.mem_singleton.1 h]
      exact Nat.lt_succ_self _
  · rw [insert_offline_rows, List.pairwise_append]
    refine ⟨h3, List.pairwise_singleton _ _, ?_⟩
    intro a ha b hb
    rw [List.mem_singleton.1 hb]
    exact fun he => absurd (he ▸ h4 a ha) (Nat.lt_irrefl _)
  · intro r hr
    rw [insert_offline_rows] at hr
    rw [insert_offline_nextId]
    rcases List.mem_append.1 hr with h | h
    · exact Nat.lt_trans (h4 r h) (Nat.lt_succ_self _)
    · rw [List.mem_singleton.1 h]
      exact Nat.lt_succ_self _

theorem storeInv_filter {α : Type} (s : Store α) (q : MsgRow α → Bool)
    (h : StoreInv s) : StoreInv ⟨s.rows.filter q, s.nextId, s.clock⟩ := by
  obtain ⟨h1, h2, h3, h4⟩ := h
  exact ⟨h1.sublist (List.filter_sublist _),
    fun r hr => h2 r (List.mem_of_mem_filter hr),
    h3.sublist (List.filter_sublist _),
    fun r hr => h4 r (List.mem_of_mem_filter hr)⟩

theorem storeInv_add {α : Type} (maxM : Nat) (s : Store α) (uid : Nat)
    (msg : α) (snd : Option Nat) (h : StoreInv s) :
    StoreInv (add_message maxM s uid msg snd).2 := by
  unfold add_message
  by_cases hcap : maxM ≤ undeliveredCount s uid
  · rw [if_pos hcap]
    cases hsel : selectOldest (undeliveredFor s uid) with
    | none => exact storeInv_insert s uid msg snd h
    | some v =>
      exact storeInv_insert _ uid msg snd
        (storeInv_filter s (fun r => ¬ r.id = v.id) h)
  · rw [if_neg hcap]
    exact storeInv_insert s uid msg snd h

theorem storeInv_init {α : Type} : StoreInv (Store.init (α := α)) := by
  refine ⟨List.Pairwise.nil, ?_, List.Pairwise.nil, ?_⟩ <;>
    exact fun r hr => absurd hr (List.not_mem_nil r)

theorem storeInv_runAdds {α : Type} (maxM : Nat) (ops : List (AddOp α)) :
    StoreInv (runAdds maxM ops) := by
  unfold runAdds
  have key : ∀ (l : List (AddOp α)) (s : Store α), StoreInv s →
      StoreInv (l.foldl (fun s op => (add_message maxM s op.uid op.msg op.sender).2) s) := by
    intro l
    induction l with
    | nil => intro s h; exact h
    | cons op t ih =>
      intro s h
      exact ih _ (storeInv_add maxM s op.uid op.msg op.sender h)
  exact key ops Store.init storeInv_init

theorem undeliveredCount_def {α : Type} (rows : List (MsgRow α)) (n c u : Nat) :
    undeliveredCount (⟨rows, n, c⟩ : Store α) u =
      rows.countP (fun r => decide (r.recipient_id = some u ∧ r.delivered = false)) :=
  (List.countP_eq_length_filter _ _).symm

theorem undeliveredCount_insert {α : Type} (s : Store α) (uid u : Nat)
    (msg : α) (snd : Option Nat) :
    undeliveredCount (insert_offline s uid msg snd).2 u =
      undeliveredCount s u + (if u = uid then 1 else 0) := by
  unfold undeliveredCount undeliveredFor insert_offline
  rw [List.filter_append, List.length_append]
  congr 1
  by_cases hu : u = uid
  · subst hu
    simp [List.filter]
  · have hne : ¬ uid = u := fun h => hu h.symm
    rw [if_neg hu]
    simp [List.filter, hne]

theorem undeliveredCount_evict_le {α : Type} (s : Store α) (u : Nat)
    (q : MsgRow α → Bool) :
    undeliveredCount ⟨s.rows.filter q, s.nextId, s.clock⟩ u ≤
      undeliveredCount s u := by
  obtain ⟨rows, nid, clk⟩ := s
  rw [undeliveredCount_def, undeliveredCount_def, countP_of_filter]
  exact List.countP_mono_left (fun a _ h => by
    simp only [Bool.and_eq_true] at h
    exact h.1)

theorem undeliveredCount_evict_lt {α : Type} (s : Store α) (u : Nat)
    (v : MsgRow α) (hmem : v ∈ undeliveredFor s u) :
    undeliveredCount ⟨s.rows.filter (fun r => ¬ r.id = v.id), s.nextId, s.clock⟩ u <
      undeliveredCount s u := by
  obtain ⟨rows, nid, clk⟩ := s
  obtain ⟨hv1, hv2⟩ := List.mem_filter.1 hmem
  rw [undeliveredCount_def, undeliveredCount_def, countP_of_filter]
  exact countP_and_lt _ _ v rows hv1 hv2 (by simp)

theorem undeliveredCount_evict_eq {α : Type} (s : Store α) (u : Nat)
    (v : MsgRow α) (hmem : v ∈ undeliveredFor s u)
    (hnd : List.Pairwise (fun a b : MsgRow α => ¬ a.id = b.id) s.rows) :
    undeliveredCount ⟨s.rows.filter (fun r => ¬ r.id = v.id), s.nextId, s.clock⟩ u + 1 =
      undeliveredCount s u := by
  obtain ⟨rows, nid, clk⟩ := s
  obtain ⟨hv1, hv2⟩ := List.mem_filter.1 hmem
  rw [undeliveredCount_def, undeliveredCount_def, countP_of_filter]
  apply countP_and_eq
  · exact hnd.imp (fun {a b} h => fun he => h (he ▸ rfl))
  · exact hv1
  · exact hv2
  · simp
  · intro a ha hne
    rcases pairwise_rel_of_mem rows hnd a ha v hv1 hne with h | h
    · exact decide_eq_true h
    · exact decide_eq_true (fun he => h (he ▸ rfl))

theorem add_message_count_le {α : Type} (maxM : Nat) (hM : 1 ≤ maxM)
    (s : Store α) (uid : Nat) (msg : α) (snd : Option Nat)
    (h : ∀ u, undeliveredCount s u ≤ maxM) :
    ∀ u, undeliveredCount (add_message maxM s uid msg snd).2 u ≤ maxM := by
  intro u
  unfold add_message
  by_cases hcap : maxM ≤ undeliveredCount s uid
  · have hc_eq : undeliveredCount s uid = maxM := Nat.le_antisymm (h uid) hcap
    have hne : ¬ undeliveredFor s uid = [] := by
      intro hnil
      unfold undeliveredCount at hc_eq
      rw [hnil] at hc_eq
      simp at hc_eq
      omega
    rw [if_pos hcap]
    cases hsel : selectOldest (undeliveredFor s uid) with
    | none =>
      have hs := selectOldest_isSome _ hne
      rw [hsel] at hs
      cases hs
    | some v =>
      have hvmem : v ∈ undeliveredFor s uid := (selectOldest_spec _ v hsel).1
      rw [undeliveredCount_insert]
      by_cases hu : u = uid
      · subst hu
        have hlt := undeliveredCount_evict_lt s u v hvmem
        rw [if_pos rfl]
        omega
      · rw [if_neg hu]
        have hle := undeliveredCount_evict_le s u (fun r => ¬ r.id = v.id)
        have := h u
        omega
  · rw [if_neg hcap]
    rw [undeliveredCount_insert]
    have hlt := Nat.lt_of_not_le hcap
    by_cases hu : u = uid
    · subst hu
      rw [if_pos rfl]
      omega
    · rw [if_neg hu]
      have := h u
      omega

theorem runAdds_count_le {α : Type} (maxM : Nat) (hM : 1 ≤ maxM)
    (ops : List (AddOp α)) :
    ∀ u, undeliveredCount (runAdds maxM ops) u ≤ maxM := by
  unfold runAdds
  have key : ∀ (l : List (AddOp α)) (s : Store α),
      (∀ u, undeliveredCount s u ≤ maxM) →
      ∀ u, undeliveredCount
        (l.foldl (fun s op => (add_message maxM s op.uid op.msg op.sender).2) s) u ≤ maxM := by
    intro l
    induction l with
    | nil => intro s h; exact h
    | cons op t ih =>
      intro s h
      exact ih _ (add_message_count_le maxM hM s op.uid op.msg op.sender h)
  refine key ops Store.init ?_
  intro u
  show ([] : List (MsgRow α)).length ≤ maxM
  simp

/-- C2 (amended): for every bound `max_messages = maxM ≥ 1`, after any
sequence of enqueues from the fresh database every recipient's
undelivered count is at most `maxM`; an enqueue below the bound simply
appends the new message; and an enqueue while the recipient's undelivered
count equals `maxM` (on a reachable database, `StoreInv`) deletes exactly
the single oldest undelivered message of that recipient (strictly oldest
by `created_at`) before inserting the new one, leaving the count at
`maxM`.  (For `maxM = 0` the bound fails — see the counterexample: there
is no oldest message to delete and the INSERT still runs.) -/
theorem c2_bounded_queue (maxM : Nat) (hM : 1 ≤ maxM) :
    (∀ (ops : List (AddOp Nat)) uid, undeliveredCount (runAdds maxM ops) uid ≤ maxM) ∧
    (∀ (s : Store Nat) uid msg snd, undeliveredCount s uid < maxM →
      (add_message maxM s uid msg snd).2.rows = s.rows ++
        [⟨s.nextId, snd, some uid, none, "offline", some msg, false, s.clock, none⟩]) ∧
    (∀ (s : Store Nat) uid msg snd, StoreInv s → undeliveredCount s uid = maxM →
      ∃ v, selectOldest (undeliveredFor s uid) = some v ∧
        v ∈ undeliveredFor s uid ∧
        (∀ r ∈ undeliveredFor s uid, ¬ r = v → v.created_at < r.created_at) ∧
        (add_message maxM s uid msg snd).2.rows
          = s.rows.filter (fun r => ¬ r.id = v.id) ++
            [⟨s.nextId, snd, some uid, none, "offline", some msg, false, s.clock, none⟩] ∧
        undeliveredCount (add_message maxM s uid msg snd).2 uid = maxM) := by
  refine ⟨fun ops uid => runAdds_count_le maxM hM ops uid, ?_, ?_⟩
  · intro s uid msg snd hlt
    unfold add_message
    rw [if_neg (Nat.not_le_of_lt hlt)]
    rfl
  · intro s uid msg snd hinv hcount
    have hne : ¬ undeliveredFor s uid = [] := by
      intro hnil
      unfold undeliveredCount at hcount
      rw [hnil] at hcount
      simp at hcount
      omega
    cases hsel : selectOldest (undeliveredFor s uid) with
    | none =>
      have hs := selectOldest_isSome _ hne
      rw [hsel] at hs
      cases hs
    | some v =>
      obtain ⟨hvmem, hvmin⟩ := selectOldest_spec _ v hsel
      have hcap : maxM ≤ undeliveredCount s uid := Nat.le_of_eq hcount.symm
      refine ⟨v, rfl, hvmem, ?_, ?_, ?_⟩
      · have hpw : List.Pairwise
            (fun a b : MsgRow Nat => a.created_at < b.created_at)
            (undeliveredFor s uid) :=
          hinv.1.sublist (List.filter_sublist _)
        intro r hr hner
        rcases pairwise_rel_of_mem _ hpw v hvmem r hr
            (fun he => hner he.symm) with h | h
        · exact h
        · exact absurd (Nat.lt_of_le_of_lt (hvmin r hr) h) (Nat.lt_irrefl _)
      · unfold add_message
        rw [if_pos hcap, hsel]
        rfl
      · have heq := undeliveredCount_evict_eq s uid v hvmem hinv.2.2.1
        unfold add_message
        rw [if_pos hcap, hsel]
        show undeliveredCount (insert_offline
          { s with rows := s.rows.filter (fun r => ¬ r.id = v.id) }
          uid msg snd).2 uid = maxM
        rw [undeliveredCount_insert, if_pos rfl]
        omega

/-- C2 counterexample: with `max_messages = 0` a single enqueue leaves
one undelivered message — the bound is exceeded because the eviction
branch finds no oldest row to delete and the INSERT runs regardless. -/
theorem c2_zero_bound_counterexample :
    undeliveredCount (add_message 0 (Store.init (α := Nat)) 1 42 none).2 1 = 1 ∧
    ¬ undeliveredCount (add_message 0 (Store.init (α := Nat)) 1 42 none).2 1 ≤ 0 := by
  decide

/-- Witness for `c2_bounded_queue` at `maxM = 1`: two enqueues for user 1
keep the count at 1; an enqueue into the fresh database appends; an
enqueue at the bound evicts the oldest undelivered row. -/
theorem c2_bounded_queue_witness :
    (1 ≤ 1) ∧
    undeliveredCount (runAdds 1 [⟨1, 5, none⟩, ⟨1, 6, none⟩]) 1 ≤ 1 ∧
    (undeliveredCount (Store.init (α := Nat)) 1 < 1 ∧
      (add_message 1 (Store.init (α := Nat)) 1 5 none).2.rows =
        (Store.init (α := Nat)).rows ++
          [⟨(Store.init (α := Nat)).nextId, none, some 1, none, "offline", some 5, false,
            (Store.init (α := Nat)).clock, none⟩]) ∧
    (StoreInv (⟨[⟨1, none, some 1, none, "offline", some 5, false, 0, none⟩], 2, 1⟩ : Store Nat) ∧
      undeliveredCount (⟨[⟨1, none, some 1, none, "offline", some 5, false, 0, none⟩], 2, 1⟩ : Store Nat) 1 = 1 ∧
      ∃ v, selectOldest (undeliveredFor
          (⟨[⟨1, none, some 1, none, "offline", some 5, false, 0, none⟩], 2, 1⟩ : Store Nat) 1) = some v ∧
        v ∈ undeliveredFor
          (⟨[⟨1, none, some 1, none, "offline", some 5, false, 0, none⟩], 2, 1⟩ : Store Nat) 1 ∧
        (∀ r ∈ undeliveredFor
          (⟨[⟨1, none, some 1, none, "offline", some 5, false, 0, none⟩], 2, 1⟩ : Store Nat) 1,
          ¬ r = v → v.created_at < r.created_at) ∧
        (add_message 1 (⟨[⟨1, none, some 1, none, "offline", some 5, false, 0, none⟩], 2, 1⟩ : Store Nat) 1 7 none).2.rows
          = (⟨[⟨1, none, some 1, none, "offline", some 5, false, 0, none⟩], 2, 1⟩ : Store Nat).rows.filter
              (fun r => ¬ r.id = v.id) ++
            [⟨2, none, some 1, none, "offline", some 7, false, 1, none⟩] ∧
        undeliveredCount (add_message 1
          (⟨[⟨1, none, some 1, none, "offline", some 5, false, 0, none⟩], 2, 1⟩ : Store Nat) 1 7 none).2 1 = 1) :=
  ⟨by decide,
   (c2_bounded_queue 1 (by decide)).1 [⟨1, 5, none⟩, ⟨1, 6, none⟩] 1,
   ⟨by decide, (c2_bounded_queue 1 (by decide)).2.1 Store.init 1 5 none (by decide)⟩,
   ⟨by decide, by decide,
    (c2_bounded_queue 1 (by decide)).2.2
      ⟨[⟨1, none, some 1, none, "offline", some 5, false, 0, none⟩], 2, 1⟩ 1 7 none
      (by decide) (by decide)⟩⟩

/-! ## Claim C1: direct-message routing dichotomy -/

theorem wf_get_isSome (cm : ConnMgr) (hwf : cm.WF) (uid cid : Nat)
    (h : cid ∈ cm.get_user_connections uid) :
    (cm.get_connection cid).isSome = true := by
  unfold ConnMgr.get_user_connections at h
  cases hg : dictGet cm.user_connections uid with
  | none =>
    rw [hg] at h
    cases h
  | some l =>
    rw [hg] at h
    simp only [Option.getD_some] at h
    unfold dictGet at hg
    obtain ⟨p, hp, hp2⟩ := Option.map_eq_some'.1 hg
    have hpmem : p ∈ cm.user_connections := List.mem_of_find?_eq_some hp
    refine hwf p hpmem cid ?_
    rw [hp2]
    exact h

theorem filterMap_length_all_some {β γ : Type} (f : β → Option γ) :
    ∀ l : List β, (∀ a ∈ l, (f a).isSome = true) →
      (l.filterMap f).length = l.length := by
  intro l
  induction l with
  | nil => intro _; rfl
  | cons x t ih =>
    intro h
    obtain ⟨y, hy⟩ := Option.isSome_iff_exists.1 (h x (List.mem_cons_self _ _))
    rw [List.filterMap_cons, hy]
    show (y :: t.filterMap f).length = (x :: t).length
    rw [List.length_cons, List.length_cons,
      ih (fun a ha => h a (List.mem_cons_of_mem _ ha))]

/-- C1: under registry well-formedness, `send_to_user` realises exactly
one of the two outcomes.  The emission list is empty iff the recipient
has no live connection; when connections exist the message store is
untouched and the message is emitted once per connection of the
recipient (to that connection's session); when no connection exists
nothing is emitted and exactly one undelivered `direct` row for the
recipient is appended to the store. -/
theorem c1_direct_dichotomy (cm : ConnMgr) (store : Store ProcessedMsg)
    (uid : Nat) (msg : ProcessedMsg) (hwf : cm.WF) :
    ((send_to_user cm store uid msg).1 = [] ↔ cm.get_user_connections uid = []) ∧
    ((send_to_user cm store uid msg).1 ≠ [] →
      (send_to_user cm store uid msg).2 = store ∧
      (send_to_user cm store uid msg).1.length
        = (cm.get_user_connections uid).length ∧
      ∀ cid ∈ cm.get_user_connections uid, ∃ i, cm.get_connection cid = some i ∧
        i.sid ∈ (send_to_user cm store uid msg).1) ∧
    ((send_to_user cm store uid msg).1 = [] →
      (send_to_user cm store uid msg).2.rows = store.rows ++
        [⟨store.nextId, msg.sender_id, some uid, none, "direct", some msg, false,
          store.clock, none⟩]) := by
  by_cases he : (cm.get_user_connections uid).isEmpty = true
  · have hl : cm.get_user_connections uid = [] := by
      rwa [List.isEmpty_iff] at he
    have hs : send_to_user cm store uid msg =
        ([], (save_message store msg.sender_id (some uid) none "direct" (some msg)).2) := by
      unfold send_to_user
      rw [if_pos he]
    rw [hs]
    refine ⟨by simp [hl], ?_, fun _ => rfl⟩
    intro hne
    exact absurd rfl hne
  · have hl : ¬ cm.get_user_connections uid = [] := by
      intro h0
      rw [h0] at he
      exact he rfl
    have hall : ∀ cid ∈ cm.get_user_connections uid,
        ((cm.get_connection cid).map (fun i => i.sid)).isSome = true := by
      intro cid hc
      have hg := wf_get_isSome cm hwf uid cid hc
      cases hgc : cm.get_connection cid with
      | none => rw [hgc] at hg; cases hg
      | some i => rfl
    have hs : send_to_user cm store uid msg =
        ((cm.get_user_connections uid).filterMap
          (fun cid => (cm.get_connection cid).map (fun i => i.sid)), store) := by
      unfold send_to_user
      rw [if_neg (by simpa using he)]
    rw [hs]
    have hlen := filterMap_length_all_some
      (fun cid => (cm.get_connection cid).map (fun i => i.sid))
      (cm.get_user_connections uid) hall
    have hne_emits : ¬ (cm.get_user_connections uid).filterMap
        (fun cid => (cm.get_connection cid).map (fun i => i.sid)) = [] := by
      intro h0
      rw [h0] at hlen
      exact hl (List.length_eq_zero.1 hlen.symm)
    refine ⟨⟨fun h0 => absurd h0 hne_emits, fun h0 => absurd h0 hl⟩, ?_, ?_⟩
    · intro _
      refine ⟨rfl, hlen, ?_⟩
      intro cid hc
      obtain ⟨i, hi⟩ := Option.isSome_iff_exists.1 (wf_get_isSome cm hwf uid cid hc)
      refine ⟨i, hi, ?_⟩
      refine List.mem_filterMap.2 ⟨cid, hc, ?_⟩
      rw [hi]
      rfl
    · intro h0
      exact absurd h0 hne_emits

/-- Witness for `c1_direct_dichotomy`: user 2 online with one connection
(session 77) — the message is emitted, not persisted; and the spec
scenario of both outcomes evaluated through the theorem's conclusion. -/
theorem c1_direct_dichotomy_witness :
    (ConnMgr.WF ⟨[(10, ⟨10, 2, 77⟩)], [(2, [10])]⟩) ∧
    ((send_to_user ⟨[(10, ⟨10, 2, 77⟩)], [(2, [10])]⟩ Store.init 2
        ⟨1, some 1, "hi", "text", 0, some 2, none⟩).1 = [] ↔
      ConnMgr.get_user_connections ⟨[(10, ⟨10, 2, 77⟩)], [(2, [10])]⟩ 2 = []) :=
  ⟨by decide,
   (c1_direct_dichotomy ⟨[(10, ⟨10, 2, 77⟩)], [(2, [10])]⟩ Store.init 2
     ⟨1, some 1, "hi", "text", 0, some 2, none⟩ (by decide)).1⟩

/-! ## Claim C6: message validation -/

/-- C6 counterexample.  The claim's acceptance predicate (`specValidate`,
stated from the spec: non-empty content, and any present type drawn from
the allowed set) disagrees with the code twice: (1) the socket `message`
path never invokes `validate_message`, so the message
`{sender_id: 1, recipient_id: 2, content: "hi", type: "evil"}` — which
the claim says must be rejected with `InvalidMessage` and never
delivered — is delivered to the online recipient's session 77; (2)
`validate_message` itself accepts `{content: ""}` although the claim
requires non-empty content. -/
theorem c6_validation_counterexample :
    specValidate ⟨some 1, some 2, none, some "hi", some "evil"⟩ = false ∧
    (handle_message ⟨some 1, some 2, none, some "hi", some "evil"⟩ ⟨0⟩
      ⟨[(10, ⟨10, 2, 77⟩)], [(2, [10])]⟩ Store.init 0).2.2.2 = [77] ∧
    validate_message ⟨some 1, some 2, none, some "", none⟩ = true ∧
    specValidate ⟨some 1, some 2, none, some "", none⟩ = false := by
  decide

/-- C6 (amended): `validate_message` accepts a message iff it carries a
`content` KEY (an empty value passes) and any present non-empty `type` is
one of `text`, `image`, `file`, `notification`; the socket `message`
path, which does not call `validate_message`, rejects exactly the
messages with falsy `sender_id` or falsy `content` (delivering and
storing nothing for them) and otherwise processes and routes the message
regardless of its `type`. -/
theorem c6_validation_behavior :
    (∀ m : RawMsg, validate_message m = true ↔
      (m.content.isSome = true ∧
        ∀ t, m.mtype = some t → ¬ t = "" → t ∈ valid_types)) ∧
    (∀ (data : RawMsg) (h : Handler) (cm : ConnMgr) (store : Store ProcessedMsg)
      (now : Nat),
      (truthyNat data.sender_id = false ∨ truthyStr data.content = false) →
      handle_message data h cm store now =
        (.error "sender_id and content required", h, store, [])) ∧
    (∀ (data : RawMsg) (h : Handler) (cm : ConnMgr) (store : Store ProcessedMsg)
      (now : Nat),
      truthyNat data.sender_id = true → truthyStr data.content = true →
      (truthyNat data.recipient_id = true →
        handle_message data h cm store now =
          (.sent (h.message_count + 1), ⟨h.message_count + 1⟩,
           (send_to_user cm store (data.recipient_id.getD 0)
             (process_message h data data.sender_id now).1).2,
           (send_to_user cm store (data.recipient_id.getD 0)
             (process_message h data data.sender_id now).1).1)) ∧
      (truthyNat data.recipient_id = false →
        handle_message data h cm store now =
          (.sent (h.message_count + 1), ⟨h.message_count + 1⟩, store, []))) := by
  refine ⟨?_, ?_, ?_⟩
  · intro m
    obtain ⟨msnd, mrid, mroom, mcontent, mt⟩ := m
    cases mcontent with
    | none => simp [validate_message]
    | some c =>
      cases mt with
      | none => simp [validate_message, truthyStr]
      | some t =>
        by_cases hte : t = ""
        · subst hte
          simp [validate_message, truthyStr]
        · by_cases htv : t ∈ valid_types
          · simp [validate_message, truthyStr, hte, htv]
          · simp [validate_message, truthyStr, hte, htv]
  · intro data h cm store now hfal
    unfold handle_message
    rw [if_pos ?hc]
    case hc =>
      rcases hfal with h1 | h1 <;> simp [h1]
  · intro data h cm store now h1 h2
    have hcond : (!truthyNat data.sender_id || !truthyStr data.content) = false := by
      simp [h1, h2]
    constructor
    · intro h3
      unfold handle_message
      rw [hcond]
      show (if truthyNat data.recipient_id = true then _ else _) = _
      rw [if_pos h3]
      rfl
    · intro h3
      unfold handle_message
      rw [hcond]
      show (if truthyNat data.recipient_id = true then _ else _) = _
      rw [if_neg ?hr]
      case hr => simp [h3]
      rfl

/-- Witness for `c6_validation_behavior`: a missing-sender message is
rejected with nothing delivered or stored; a valid message to online
user 2 is routed through `send_to_user`. -/
theorem c6_validation_behavior_witness :
    (validate_message ⟨some 1, some 2, none, some "x", some "text"⟩ = true ↔
      ((some "x" : Option String).isSome = true ∧
        ∀ t, (some "text" : Option String) = some t → ¬ t = "" → t ∈ valid_types)) ∧
    (truthyNat (none : Option Nat) = false ∨ truthyStr (some "hi") = false) ∧
    handle_message ⟨none, some 2, none, some "hi", none⟩ ⟨0⟩
      ⟨[(10, ⟨10, 2, 77⟩)], [(2, [10])]⟩ Store.init 0 =
      (.error "sender_id and content required", ⟨0⟩, Store.init, []) ∧
    handle_message ⟨some 1, some 2, none, some "hi", none⟩ ⟨0⟩
      ⟨[(10, ⟨10, 2, 77⟩)], [(2, [10])]⟩ Store.init 0 =
      (.sent 1, ⟨1⟩,
       (send_to_user ⟨[(10, ⟨10, 2, 77⟩)], [(2, [10])]⟩ Store.init 2
         (process_message ⟨0⟩ ⟨some 1, some 2, none, some "hi", none⟩ (some 1) 0).1).2,
       (send_to_user ⟨[(10, ⟨10, 2, 77⟩)], [(2, [10])]⟩ Store.init 2
         (process_message ⟨0⟩ ⟨some 1, some 2, none, some "hi", none⟩ (some 1) 0).1).1) :=
  ⟨c6_validation_behavior.1 ⟨some 1, some 2, none, some "x", some "text"⟩,
   Or.inl (by decide),
   c6_validation_behavior.2.1 ⟨none, some 2, none, some "hi", none⟩ ⟨0⟩
     ⟨[(10, ⟨10, 2, 77⟩)], [(2, [10])]⟩ Store.init 0 (Or.inl (by decide)),
   (c6_validation_behavior.2.2 ⟨some 1, some 2, none, some "hi", none⟩ ⟨0⟩
     ⟨[(10, ⟨10, 2, 77⟩)], [(2, [10])]⟩ Store.init 0 (by decide) (by decide)).1
     (by decide)⟩

end WSHub
